import Mathlib

/-!
Shallow embedding of the marketplace search/extraction pipeline of the
OPTCG collector backend (src/main.py) and verification of the spec's
claims about it.

The HTML structure handed to `parse_cardmarket_search` by BeautifulSoup
is modelled by `Doc`/`Row`: a `Doc` carries the element lists that the
two document-level CSS selections (`.table-body .row, .product-list .row`
and the `.search-results .row` fallback) would return, and a `Row`
carries exactly the sub-queries the Python body performs on a row:
its anchor elements in document order (href attribute and stripped inner
text), the row's whitespace-normalised text, its first `img` element
(with `data-src` and `src` attributes), and the `title` attribute of a
`.product-attributes img[title]` element when present.
-/

namespace OPTCG

/-- Bool test whether list `p` is an initial segment of `l` (chars compared with `==`). -/
def listStarts : List Char → List Char → Bool
  | [], _ => true
  | _ :: _, [] => false
  | a :: as, b :: bs => a == b && listStarts as bs

/-- Bool test whether `n` occurs as a contiguous run inside `h`
(the Python `needle in hay` substring test). -/
def listHasSub (n : List Char) : List Char → Bool
  | [] => n.isEmpty
  | c :: rest => listStarts n (c :: rest) || listHasSub n rest

/-- `needle in hay` on strings. -/
def strContains (needle hay : String) : Bool :=
  listHasSub needle.toList hay.toList

/-- `str.lower()` (ASCII). -/
def lowerStr (s : String) : String :=
  String.mk (s.toList.map Char.toLower)

/-- Python `s.split("?")[0]`: everything before the first `?`. -/
def stripQuery (s : String) : String :=
  String.mk (s.toList.takeWhile (fun c => c != '?'))

/-- Python truthiness of an optional string attribute:
`None` and the empty string are falsy. -/
def pyTruthy : Option String → Bool
  | none => false
  | some s => !s.isEmpty

/-- An anchor element: its `href` attribute and its stripped inner text
(`get_text(strip=True)`). -/
structure Anchor where
  href : String
  text : String
deriving DecidableEq

/-- An `img` element with its optional `data-src` and `src` attributes. -/
structure RowImg where
  dataSrc : Option String
  src : Option String
deriving DecidableEq

/-- One product row as the extractor queries it. -/
structure Row where
  /-- the row's anchor elements, in document order -/
  anchors : List Anchor
  /-- `row.get_text(" ", strip=True)` -/
  text : String
  /-- `row.select_one("img")`: the row's first image element, if any -/
  img : Option RowImg
  /-- `title` attribute of `row.select_one(".product-attributes img[title]")`, if such an element exists -/
  langTitle : Option String
deriving DecidableEq

/-- The parsed document: the rows returned by the two document-level
CSS selections of `parse_cardmarket_search`. -/
structure Doc where
  /-- rows matched by `.table-body .row, .product-list .row` -/
  primaryRows : List Row
  /-- rows matched by `.search-results .row` -/
  searchResultsRows : List Row
deriving DecidableEq

/-- The `SearchResult` pydantic model of src/main.py. -/
structure SearchResult where
  id_code : Option String := none
  name : Option String := none
  language : Option String := none
  image_url : Option String := none
  source_url : String
  source : String := "cardmarket"
deriving DecidableEq

/-- `row.select_one("a[href*='/en/OnePiece/Products']") or row.select_one("a[href*='/en/OnePiece']")`. -/
def selectLink (r : Row) : Option Anchor :=
  match r.anchors.find? (fun a => strContains "/en/OnePiece/Products" a.href) with
  | some a => some a
  | none => r.anchors.find? (fun a => strContains "/en/OnePiece" a.href)

/-- `"https://www.cardmarket.com" + link.get("href").split("?")[0]`. -/
def resolveHref (href : String) : String :=
  "https://www.cardmarket.com" ++ stripQuery href

/-- Image-url heuristic of the row: prefer a truthy `data-src` over a
truthy `src`, else absent. -/
def rowImageUrl (r : Row) : Option String :=
  match r.img with
  | none => none
  | some i =>
      if pyTruthy i.dataSrc then i.dataSrc
      else if pyTruthy i.src then i.src
      else none

/-- One 8-character window matching the regex `OP\d\x7b2\x7d-\d\x7b3\x7d`
with `re.IGNORECASE`: letters `O`,`P` in either case, two digits,
a hyphen, three digits. -/
def opMatch : List Char → Bool
  | [c1, c2, d1, d2, h, e1, e2, e3] =>
      (c1 == 'O' || c1 == 'o') && (c2 == 'P' || c2 == 'p') &&
      d1.isDigit && d2.isDigit && h == '-' &&
      e1.isDigit && e2.isDigit && e3.isDigit
  | _ => false

/-- `re.search`: the leftmost 8-character window matching `opMatch`. -/
def findOP : List Char → Option (List Char)
  | [] => none
  | c :: rest =>
      if opMatch ((c :: rest).take 8) then some ((c :: rest).take 8)
      else findOP rest

/-- `m.group(0).upper()` applied to the first regex match in `text`, if any. -/
def idCodeOf (text : String) : Option String :=
  (findOP text.toList).map (fun m => String.mk (m.map Char.toUpper))

/-- Language heuristic: lowercase the `title` attribute of the
`.product-attributes img[title]` element; `english` maps to `EN`,
else `japanese` maps to `JP`, else absent. -/
def rowLanguage (r : Row) : Option String :=
  match r.langTitle with
  | none => none
  | some t =>
      if strContains "english" (lowerStr t) then some "EN"
      else if strContains "japanese" (lowerStr t) then some "JP"
      else none

/-- The per-row body of the extraction loop: skip the row if it has no
matching anchor, otherwise build the `SearchResult`. -/
def parseRow (r : Row) : Option SearchResult :=
  match selectLink r with
  | none => none
  | some link =>
      some { id_code := idCodeOf r.text
             name := if link.text.isEmpty then none else some link.text
             language := rowLanguage r
             image_url := rowImageUrl r
             source_url := resolveHref link.href
             source := "cardmarket" }

/-- `product_rows` after the `if not product_rows` fallback selection. -/
def docRows (d : Doc) : List Row :=
  if d.primaryRows.isEmpty then d.searchResultsRows else d.primaryRows

/-- `parse_cardmarket_search`: one `SearchResult` per row with a matching
anchor, in document order; no deduplication and no length cap. -/
def parse_cardmarket_search (d : Doc) : List SearchResult :=
  (docRows d).filterMap parseRow

/-- Outcome of the single outbound fetch issued by the search endpoint. -/
inductive FetchOutcome where
  /-- the fetch returned a response with this status code and (parsed) body -/
  | ok (status : Nat) (doc : Doc)
  /-- `requests.get` raised (transport error or timeout) -/
  | failure
deriving DecidableEq

/-- How a search request fails. -/
inductive SearchError where
  /-- `HTTPException(502, "Cardmarket unreachable")`, raised on a non-200 upstream status -/
  | upstreamNon200
  /-- an uncaught transport exception propagating out of the handler -/
  | transportFailure
deriving DecidableEq

/-- HTTP status the framework maps each failure to. -/
def errStatus : SearchError → Nat
  | .upstreamNon200 => 502
  | .transportFailure => 500

/-- `search_cardmarket` (GET /api/search/cardmarket): `q` only feeds the
outbound request URL, whose fetch outcome is `o`; a non-200 status raises
502, a transport error propagates, and on 200 the parsed listings are
returned as-is — there is no fallback path. -/
def search_cardmarket (q : String) (o : FetchOutcome) :
    Except SearchError (List SearchResult) :=
  match o with
  | .failure => .error .transportFailure
  | .ok status doc =>
      if status == 200 then .ok (parse_cardmarket_search doc)
      else .error .upstreamNon200

/-- The per-candidate filter of `search_by_image`: `imgFetch u` is the
perceptual-hash distance between the uploaded target and the image
fetched from `u` (`none` when the fetch fails, returns non-200, or the
bytes are not an image). A candidate is kept when its image url is
truthy, the distance is at most 2, and its language is EN or JP. -/
def listingMatches (imgFetch : String → Option Nat) (c : SearchResult) : Bool :=
  match c.image_url with
  | none => false
  | some u =>
      if u.isEmpty then false
      else
        match imgFetch u with
        | none => false
        | some dist =>
            decide (dist ≤ 2) && (c.language == some "EN" || c.language == some "JP")

/-- `search_by_image` (POST /api/search/by-image): reject an invalid
upload with 400, reject a missing or empty query with 400, propagate a
`search_cardmarket` failure as its status code, and otherwise filter the
candidates by `listingMatches`. -/
def search_by_image (imgValid : Bool) (q : Option String) (o : FetchOutcome)
    (imgFetch : String → Option Nat) : Except Nat (List SearchResult) :=
  if !imgValid then .error 400
  else if !pyTruthy q then .error 400
  else
    match search_cardmarket (q.getD "") o with
    | .error e => .error (errStatus e)
    | .ok cs => .ok (cs.filter (listingMatches imgFetch))

/-- Modelled from the spec: one 8-character window matching the spec's
generic id-code pattern `LL\d\d-\d\d\d` (any two letters, two digits,
hyphen, three digits), any letter case. Used only to state claims about
the spec's pattern; the code's own matcher is `opMatch`. -/
def specLLMatch : List Char → Bool
  | [c1, c2, d1, d2, h, e1, e2, e3] =>
      c1.isAlpha && c2.isAlpha && d1.isDigit && d2.isDigit && h == '-' &&
      e1.isDigit && e2.isDigit && e3.isDigit
  | _ => false

/-- Modelled from the spec: whether the text contains a substring
matching the spec's id-code pattern `LL\d\d-\d\d\d`. -/
def specHasLLCode : List Char → Bool
  | [] => false
  | c :: rest => specLLMatch ((c :: rest).take 8) || specHasLLCode rest

/-- Modelled from the spec: "Search the extracted text for a language
keyword; map english to EN, japanese to JP; otherwise absent." -/
def specLanguageFromText (text : String) : Option String :=
  if strContains "english" (lowerStr text) then some "EN"
  else if strContains "japanese" (lowerStr text) then some "JP"
  else none

/-! ### Example documents used as concrete inputs -/

/-- A response body from which extraction yields no listings. -/
def emptyDoc : Doc := ⟨[], []⟩

/-- Row whose anchor target carries the query string `?language=1`. -/
def dupRowA : Row :=
  { anchors := [⟨"/en/OnePiece/Products/Singles/X/123?language=1", "Card A"⟩],
    text := "Card A", img := none, langTitle := none }

/-- Row whose anchor target carries the query string `?language=2`. -/
def dupRowB : Row :=
  { anchors := [⟨"/en/OnePiece/Products/Singles/X/123?language=2", "Card B"⟩],
    text := "Card B", img := none, langTitle := none }

/-- Two rows whose anchor targets differ only in query string. -/
def dupDoc : Doc := ⟨[dupRowA, dupRowB], []⟩

/-- The `i`-th of a family of rows with pairwise distinct link targets. -/
def capRow (i : Nat) : Row :=
  { anchors := [⟨"/en/OnePiece/Products/" ++ toString i, "Card " ++ toString i⟩],
    text := "", img := none, langTitle := none }

/-- 49 well-formed matching rows with distinct link targets. -/
def capDoc : Doc := ⟨(List.range 49).map capRow, []⟩

/-! ### Helper lemmas -/

theorem filterMap_parseRow_map_sourceUrl (l : List Row) :
    (l.filterMap parseRow).map SearchResult.source_url =
      (l.filterMap selectLink).map (fun a => resolveHref a.href) := by
  induction l with
  | nil => rfl
  | cons r rest ih =>
      cases h : selectLink r with
      | none => simp [List.filterMap_cons, parseRow, h, ih]
      | some a => simp [List.filterMap_cons, parseRow, h, ih]

theorem filterMap_parseRow_length (l : List Row) :
    (l.filterMap parseRow).length = l.countP (fun r => (selectLink r).isSome) := by
  induction l with
  | nil => rfl
  | cons r rest ih =>
      cases h : selectLink r with
      | none => simp [List.filterMap_cons, List.countP_cons, parseRow, h, ih]
      | some a => simp [List.filterMap_cons, List.countP_cons, parseRow, h, ih]

/-! ### Claims -/

/-- C1 (counterexample): the search endpoint does not absorb upstream
errors: on an upstream 503 response it produces no successful listing
array at all, but raises a 502 error. -/
theorem search_cardmarket_fails_counterexample :
    ¬ ∃ ls, search_cardmarket "OP05-119" (FetchOutcome.ok 503 emptyDoc) =
      Except.ok ls := by
  intro h
  obtain ⟨ls, h⟩ := h
  simp [search_cardmarket, emptyDoc] at h

/-- C1 (amended): the search endpoint succeeds exactly when the upstream
fetch returns status 200; a non-200 upstream status raises a 502 error
and a transport failure propagates out of the handler. There is no
fallback path absorbing upstream errors. -/
theorem search_cardmarket_ok_iff (q : String) (o : FetchOutcome) :
    (∃ ls, search_cardmarket q o = Except.ok ls) ↔
      (∃ d, o = FetchOutcome.ok 200 d) := by
  cases o with
  | failure => simp [search_cardmarket]
  | ok status doc =>
      by_cases h : status = 200
      · subst h; simp [search_cardmarket]
      · simp [search_cardmarket, h]

/-- C2 (counterexample): the query `OP05-119` contains the id-code
pattern and the primary path yields zero listings, yet the endpoint
returns the empty array rather than a synthesized one-element fallback
listing: no fallback exists in the code. -/
theorem fallback_missing_counterexample :
    specHasLLCode ("OP05-119".toList) = true ∧
    parse_cardmarket_search emptyDoc = [] ∧
    search_cardmarket "OP05-119" (FetchOutcome.ok 200 emptyDoc) =
      Except.ok [] :=
  ⟨rfl, rfl, rfl⟩

/-- C2 (amended): there is no fallback: whenever the fetch succeeds with
status 200 and extraction yields zero listings, the endpoint returns the
empty array, for every query — in particular also for queries containing
the id-code pattern; on upstream failure it raises instead of falling
back. -/
theorem search_cardmarket_no_fallback (q : String) (d : Doc)
    (h : parse_cardmarket_search d = []) :
    search_cardmarket q (FetchOutcome.ok 200 d) = Except.ok [] := by
  simp [search_cardmarket, h]

/-- C2 (witness): the no-fallback theorem at query `OP05-119` and an
empty extraction. -/
theorem search_cardmarket_no_fallback_witness :
    search_cardmarket "OP05-119" (FetchOutcome.ok 200 emptyDoc) =
      Except.ok [] :=
  search_cardmarket_no_fallback "OP05-119" emptyDoc rfl

/-- C3 (counterexample): two anchors whose targets differ only in query
string resolve to the same `source_url`, and extraction keeps both: the
result contains two entries with equal `source_url`, not one. -/
theorem parse_duplicate_sourceUrl_counterexample :
    (parse_cardmarket_search dupDoc).map SearchResult.source_url =
      ["https://www.cardmarket.com/en/OnePiece/Products/Singles/X/123",
       "https://www.cardmarket.com/en/OnePiece/Products/Singles/X/123"] ∧
    (parse_cardmarket_search dupDoc).length ≠ 1 :=
  ⟨rfl, by decide⟩

/-- C3 (amended): extraction performs no deduplication: the `source_url`
fields of the result are exactly the resolved targets of the selected
anchors of the matching rows, in document order, duplicates included. -/
theorem parse_no_dedup (d : Doc) :
    (parse_cardmarket_search d).map SearchResult.source_url =
      ((docRows d).filterMap selectLink).map (fun a => resolveHref a.href) :=
  filterMap_parseRow_map_sourceUrl (docRows d)

/-- C4 (counterexample): on 49 well-formed matching rows with pairwise
distinct link targets the extractor returns all 49 listings, not
min(49, 48) = 48: no cap is applied. -/
theorem parse_no_cap_counterexample :
    ((parse_cardmarket_search capDoc).map SearchResult.source_url).Nodup ∧
    (parse_cardmarket_search capDoc).length = 49 ∧
    (parse_cardmarket_search capDoc).length ≠ min 49 48 :=
  ⟨by decide, by decide, by decide⟩

/-- C4 (amended): the extractor returns exactly one listing per matching
row — N listings for N matching anchors, in first-occurrence order, with
no 48-entry cap. -/
theorem parse_no_cap (d : Doc) :
    (parse_cardmarket_search d).length =
      (docRows d).countP (fun r => (selectLink r).isSome) :=
  filterMap_parseRow_length (docRows d)

/-! ### Helper lemmas for the id-code matcher -/

theorem opMatch_length {m : List Char} (h : opMatch m = true) : m.length = 8 := by
  unfold opMatch at h
  split at h
  · rfl
  · exact Bool.noConfusion h

theorem findOP_sound :
    ∀ cs m : List Char, findOP cs = some m →
      opMatch m = true ∧ ∃ pre post, cs = pre ++ m ++ post := by
  intro cs
  induction cs with
  | nil => intro m h; simp [findOP] at h
  | cons c rest ih =>
      intro m h
      unfold findOP at h
      by_cases hm : opMatch ((c :: rest).take 8) = true
      · rw [if_pos hm] at h
        obtain rfl : (c :: rest).take 8 = m := by injection h
        exact ⟨hm, [], (c :: rest).drop 8, by simp [List.take_append_drop]⟩
      · rw [if_neg hm] at h
        obtain ⟨hop, pre, post, heq⟩ := ih m h
        exact ⟨hop, c :: pre, post, by simp [heq]⟩

theorem findOP_isSome_of_match :
    ∀ pre m post : List Char, opMatch m = true →
      (findOP (pre ++ m ++ post)).isSome = true := by
  intro pre
  induction pre with
  | nil =>
      intro m post hm
      have hlen := opMatch_length hm
      cases m with
      | nil => simp at hlen
      | cons c rest =>
          have htake : (c :: rest ++ post).take 8 = c :: rest := by
            have h := List.take_left (c :: rest) post
            rwa [hlen] at h
          simp only [List.nil_append, List.cons_append]
          rw [findOP]
          rw [← List.cons_append, htake, if_pos hm]
          rfl
  | cons p ps ih =>
      intro m post hm
      simp only [List.cons_append]
      rw [findOP]
      by_cases h : opMatch ((p :: (ps ++ m ++ post)).take 8) = true
      · rw [if_pos h]; rfl
      · rw [if_neg h]
        exact ih m post hm

theorem all_takeWhile (p : Char → Bool) :
    ∀ l : List Char, (l.takeWhile p).all p = true := by
  intro l
  induction l with
  | nil => rfl
  | cons c cs ih =>
      by_cases h : p c = true
      · simp [List.takeWhile_cons, h, ih]
      · simp [List.takeWhile_cons, h]

theorem listStarts_append :
    ∀ l₁ l₂ : List Char, listStarts l₁ (l₁ ++ l₂) = true := by
  intro l₁ l₂
  induction l₁ with
  | nil => rfl
  | cons c cs ih => simp [listStarts, ih]

theorem resolveHref_toList (href : String) :
    (resolveHref href).toList =
      "https://www.cardmarket.com".toList ++
        href.toList.takeWhile (fun c => c != '?') := by
  show (resolveHref href).data = _
  rw [resolveHref, String.data_append]
  rfl

theorem rowLanguage_restricted (r : Row) :
    rowLanguage r = none ∨ rowLanguage r = some "EN" ∨
      rowLanguage r = some "JP" := by
  cases h : r.langTitle with
  | none => simp [rowLanguage, h]
  | some t =>
      by_cases h1 : strContains "english" (lowerStr t) = true
      · simp [rowLanguage, h, h1]
      · by_cases h2 : strContains "japanese" (lowerStr t) = true
        · simp [rowLanguage, h, h1, h2]
        · simp [rowLanguage, h, h1, h2]

/-! ### More example inputs -/

/-- A row whose text carries the id code `ST01-001`, which matches the
spec's generic pattern but not the code's `OP`-only regex. -/
def stRow : Row :=
  { anchors := [⟨"/en/OnePiece/Products/9", "ST01-001 Luffy"⟩],
    text := "ST01-001 Luffy", img := none, langTitle := none }

def stDoc : Doc := ⟨[stRow], []⟩

/-- A row whose extracted text contains the keyword `english` but which
has no `.product-attributes` language icon. -/
def engTextRow : Row :=
  { anchors := [⟨"/en/OnePiece/Products/7", "Nice card english version"⟩],
    text := "Nice card english version", img := none, langTitle := none }

def engTextDoc : Doc := ⟨[engTextRow], []⟩

/-- A row whose language icon title is `Japanese`. -/
def langRow : Row :=
  { anchors := [⟨"/en/OnePiece/Products/8", "Card"⟩],
    text := "Card", img := none, langTitle := some "Japanese" }

def langDoc : Doc := ⟨[langRow], []⟩

/-- The listing extracted from `langRow`. -/
def langListing : SearchResult :=
  { id_code := none, name := some "Card", language := some "JP",
    image_url := none,
    source_url := "https://www.cardmarket.com/en/OnePiece/Products/8",
    source := "cardmarket" }

/-- A row whose anchor target is relative and carries a query string. -/
def urlRow : Row :=
  { anchors := [⟨"/en/OnePiece/Products/55?foo=1", "Card U"⟩],
    text := "Card U", img := none, langTitle := none }

def urlDoc : Doc := ⟨[urlRow], []⟩

/-- The listing extracted from `urlRow`. -/
def urlListing : SearchResult :=
  { id_code := none, name := some "Card U", language := none,
    image_url := none,
    source_url := "https://www.cardmarket.com/en/OnePiece/Products/55",
    source := "cardmarket" }

/-- A row with no anchor matching the site path patterns. -/
def noMatchRow : Row :=
  { anchors := [⟨"/en/Pokemon/Products/1", "Pika"⟩],
    text := "Pika", img := none, langTitle := none }

def noMatchDoc : Doc := ⟨[noMatchRow], []⟩

/-- C5 (counterexample): the listing text `ST01-001 Luffy` contains a
substring matching the spec's id-code pattern `LL\d\d-\d\d\d`, yet the
extracted listing's `id_code` is absent: the code only matches codes
beginning with the letters `OP`. -/
theorem idCode_pattern_counterexample :
    specHasLLCode (stRow.text.toList) = true ∧
    (parse_cardmarket_search stDoc).map SearchResult.id_code = [none] :=
  ⟨rfl, rfl⟩

/-- C5 (amended): for every text containing a substring matching
`OP\d\d-\d\d\d` with the letters `O`, `P` in either case, the derived
id code is present and equals the uppercasing of a substring of the text
matching that pattern. -/
theorem idCode_from_op_match (s : String)
    (h : ∃ pre m post, s.toList = pre ++ m ++ post ∧ opMatch m = true) :
    ∃ m pre post, s.toList = pre ++ m ++ post ∧ opMatch m = true ∧
      idCodeOf s = some (String.mk (m.map Char.toUpper)) := by
  obtain ⟨pre, m, post, heq, hm⟩ := h
  have hs : (findOP s.toList).isSome = true := by
    rw [heq]; exact findOP_isSome_of_match pre m post hm
  obtain ⟨m', hm'⟩ := Option.isSome_iff_exists.mp hs
  obtain ⟨hop, pre', post', heq'⟩ := findOP_sound s.toList m' hm'
  exact ⟨m', pre', post', heq', hop, by unfold idCodeOf; rw [hm']; rfl⟩

/-- C5 (witness): the amended theorem at the text
`Luffy op05-119 alt`. -/
theorem idCode_from_op_match_witness :
    ∃ m pre post, ("Luffy op05-119 alt".toList = pre ++ m ++ post) ∧
      opMatch m = true ∧
      idCodeOf "Luffy op05-119 alt" =
        some (String.mk (m.map Char.toUpper)) :=
  idCode_from_op_match "Luffy op05-119 alt"
    ⟨"Luffy ".toList, "op05-119".toList, " alt".toList, by decide, by decide⟩

/-- C6 (counterexample): the extracted text of `engTextRow` contains the
keyword `english`, so the spec's text-based rule yields `EN`; but the
code derives the language from the `.product-attributes` icon title, of
which there is none, so the extracted listing's language is absent. -/
theorem language_from_text_counterexample :
    specLanguageFromText engTextRow.text = some "EN" ∧
    (parse_cardmarket_search engTextDoc).map SearchResult.language =
      [none] :=
  ⟨rfl, rfl⟩

/-- C6 (amended): the language of every extracted listing is derived
from the title of the `.product-attributes` language icon, not from the
listing text, and is always `EN`, `JP`, or absent. -/
theorem language_restricted (d : Doc) (l : SearchResult)
    (h : l ∈ parse_cardmarket_search d) :
    l.language = none ∨ l.language = some "EN" ∨
      l.language = some "JP" := by
  obtain ⟨r, hr, hpr⟩ := List.mem_filterMap.mp h
  unfold parseRow at hpr
  cases hsel : selectLink r with
  | none => rw [hsel] at hpr; exact Option.noConfusion hpr
  | some a =>
      rw [hsel] at hpr
      injection hpr with hpr
      have hl : l.language = rowLanguage r := by rw [← hpr]
      rw [hl]
      exact rowLanguage_restricted r

/-- C6 (witness): the amended theorem at the listing extracted from
`langRow`, whose icon title is `Japanese`. -/
theorem language_restricted_witness :
    langListing.language = none ∨ langListing.language = some "EN" ∨
      langListing.language = some "JP" :=
  language_restricted langDoc langListing (by decide)

/-- C7: every extracted listing's `source_url` starts with the site
scheme+host (the site base is prepended to the extracted reference) and
contains no `?`: the query string is always stripped. -/
theorem sourceUrl_absolute_no_query (d : Doc) (l : SearchResult)
    (h : l ∈ parse_cardmarket_search d) :
    listStarts ("https://www.cardmarket.com".toList) (l.source_url.toList) = true ∧
    l.source_url.toList.all (fun c => c != '?') = true := by
  obtain ⟨r, hr, hpr⟩ := List.mem_filterMap.mp h
  unfold parseRow at hpr
  cases hsel : selectLink r with
  | none => rw [hsel] at hpr; exact Option.noConfusion hpr
  | some a =>
      rw [hsel] at hpr
      injection hpr with hpr
      have hl : l.source_url = resolveHref a.href := by rw [← hpr]
      rw [hl, resolveHref_toList]
      constructor
      · exact listStarts_append _ _
      · rw [List.all_append]
        rw [Bool.and_eq_true]
        exact ⟨by decide, all_takeWhile _ _⟩

/-- C7 (witness): the invariant at the listing extracted from `urlRow`,
whose anchor target is relative and carries a query string. -/
theorem sourceUrl_absolute_no_query_witness :
    listStarts ("https://www.cardmarket.com".toList)
      (urlListing.source_url.toList) = true ∧
    urlListing.source_url.toList.all (fun c => c != '?') = true :=
  sourceUrl_absolute_no_query urlDoc urlListing (by decide)

/-- C8: the extractor is a total function of the parsed markup alone
(it is a plain computable function of its input, with no effects), and
absence of matching anchors yields the empty list rather than an
error. -/
theorem parse_empty_of_no_matches (d : Doc)
    (h : (docRows d).all (fun r => (selectLink r).isNone) = true) :
    parse_cardmarket_search d = [] := by
  unfold parse_cardmarket_search
  rw [List.filterMap_eq_nil_iff]
  intro r hr
  have hnone := List.all_eq_true.mp h r hr
  unfold parseRow
  cases hsel : selectLink r with
  | none => rfl
  | some a => rw [hsel] at hnone; exact Bool.noConfusion hnone

/-- C8 (witness): extraction of a document whose only row has no
matching anchor yields the empty list. -/
theorem parse_empty_of_no_matches_witness :
    parse_cardmarket_search noMatchDoc = [] :=
  parse_empty_of_no_matches noMatchDoc (by decide)

/-- A row with a lazy-loaded image and an `English` language icon. -/
def imgRow : Row :=
  { anchors := [⟨"/en/OnePiece/Products/100", "Zoro OP01-001"⟩],
    text := "Zoro OP01-001",
    img := some ⟨some "http://img/z.png", none⟩,
    langTitle := some "English" }

def imgDoc : Doc := ⟨[imgRow], []⟩

/-- Image-fetch environment in which every image is reachable and at
perceptual-hash distance 0 from the target. -/
def imgFetchStub : String → Option Nat := fun _ => some 0

/-- The listing extracted from `imgRow`. -/
def imgListing : SearchResult :=
  { id_code := some "OP01-001", name := some "Zoro OP01-001",
    language := some "EN", image_url := some "http://img/z.png",
    source_url := "https://www.cardmarket.com/en/OnePiece/Products/100",
    source := "cardmarket" }

/-- C9: when the query form field is absent or empty, the image-search
endpoint answers 400 for every upstream state and every image-fetch
environment — in particular the marketplace search outcome is never
consulted — and this holds whether or not the uploaded image is
valid. -/
theorem search_by_image_requires_query (v : Bool) (q : Option String)
    (o : FetchOutcome) (f : String → Option Nat)
    (h : q = none ∨ q = some "") :
    search_by_image v q o f = Except.error 400 := by
  rcases h with h | h <;> subst h <;> cases v <;> rfl

/-- C9 (witness): a valid image with an absent query is rejected with
400. -/
theorem search_by_image_requires_query_witness :
    search_by_image true none FetchOutcome.failure (fun _ => none) =
      Except.error 400 :=
  search_by_image_requires_query true none FetchOutcome.failure
    (fun _ => none) (Or.inl rfl)

/-- C10: every listing returned by the image-search endpoint has a
language of EN or JP, a present non-empty image url, and an image that
was fetched successfully at perceptual-hash distance at most 2 from the
uploaded target; all other candidates are filtered out. -/
theorem search_by_image_output_filtered (v : Bool) (q : Option String)
    (o : FetchOutcome) (f : String → Option Nat) (rs : List SearchResult)
    (c : SearchResult) (hok : search_by_image v q o f = Except.ok rs)
    (hc : c ∈ rs) :
    (c.language = some "EN" ∨ c.language = some "JP") ∧
    ∃ u, c.image_url = some u ∧ u.isEmpty = false ∧
      ∃ dist, f u = some dist ∧ dist ≤ 2 := by
  unfold search_by_image at hok
  cases v with
  | false => simp at hok
  | true =>
      by_cases hq : pyTruthy q = true
      · rw [hq] at hok
        cases hsc : search_cardmarket (q.getD "") o with
        | error e => rw [hsc] at hok; simp at hok
        | ok cs =>
            rw [hsc] at hok
            simp at hok
            subst hok
            have hmatch := (List.mem_filter.mp hc).2
            unfold listingMatches at hmatch
            cases hu : c.image_url with
            | none => rw [hu] at hmatch; exact Bool.noConfusion hmatch
            | some u =>
                rw [hu] at hmatch
                have hm1 : (if u.isEmpty = true then false
                    else
                      match f u with
                      | none => false
                      | some dist =>
                          decide (dist ≤ 2) &&
                            (c.language == some "EN" ||
                              c.language == some "JP")) = true := hmatch
                by_cases hemp : u.isEmpty = true
                · rw [if_pos hemp] at hm1
                  exact Bool.noConfusion hm1
                · rw [if_neg hemp] at hm1
                  cases hf : f u with
                  | none => rw [hf] at hm1; exact Bool.noConfusion hm1
                  | some dist =>
                      rw [hf] at hm1
                      have hm2 : (decide (dist ≤ 2) &&
                          (c.language == some "EN" ||
                            c.language == some "JP")) = true := hm1
                      rw [Bool.and_eq_true] at hm2
                      obtain ⟨hd, hl⟩ := hm2
                      rw [Bool.or_eq_true] at hl
                      refine ⟨?_, u, rfl, ?_, dist, hf, of_decide_eq_true hd⟩
                      · rcases hl with hl | hl
                        · exact Or.inl (eq_of_beq hl)
                        · exact Or.inr (eq_of_beq hl)
                      · exact Bool.not_eq_true u.isEmpty ▸ hemp
      · rw [Bool.not_eq_true] at hq
        rw [hq] at hok
        simp at hok

/-- C10 (witness): the filtering theorem at a concrete successful
image-search run returning exactly the listing extracted from
`imgRow`. -/
theorem search_by_image_output_filtered_witness :
    (imgListing.language = some "EN" ∨ imgListing.language = some "JP") ∧
    ∃ u, imgListing.image_url = some u ∧ u.isEmpty = false ∧
      ∃ dist, imgFetchStub u = some dist ∧ dist ≤ 2 :=
  search_by_image_output_filtered true (some "zoro")
    (FetchOutcome.ok 200 imgDoc) imgFetchStub [imgListing] imgListing
    rfl (by decide)

end OPTCG
